import Mathlib

set_option autoImplicit false

/-!
Verification development for the docker/swarm core sources:
`scheduler/filter/expr.go`, `cluster/config.go`, `cluster/container.go`
(the latter file contains two generations of code: the registry
`Containers.Get` lookup and the older `Cluster` coordinator with
`AddNode` and `Cluster.Container`).

Go strings are modelled by `String` viewed as its character list; Go maps
from string to string are modelled by association lists with first-match
lookup; fallible Go calls return `Option`/`Except`.
-/

namespace Swarm

/-! String helpers: models of the Go `strings` package functions used. -/

/-- Model of `strings.HasPrefix s pre`. -/
def hasPref (s pre : String) : Bool := pre.data.isPrefixOf s.data

/-- Splits a character list at the first occurrence of the pattern `pat`,
returning the part before the occurrence and the part after it.  `none`
when `pat` does not occur.  For a non-empty `pat` this models both
`strings.Contains` (via `isSome`) and `strings.SplitN (·) pat 2`. -/
def splitFirstSub (pat : List Char) : List Char → Option (List Char × List Char)
  | [] => none
  | c :: rest =>
    if pat.isPrefixOf (c :: rest) then some ([], (c :: rest).drop pat.length)
    else
      match splitFirstSub pat rest with
      | some (l, r) => some (c :: l, r)
      | none => none

/-- ASCII lower-casing of one character, the fragment of `strings.ToLower`
exercised by the sources (expression keys are validated to be ASCII). -/
def asciiToLower (c : Char) : Char :=
  if 65 ≤ c.toNat ∧ c.toNat ≤ 90 then Char.ofNat (c.toNat + 32) else c

/-- Model of `strings.ToLower` restricted to ASCII. -/
def strToLower (s : String) : String := ⟨s.data.map asciiToLower⟩

/-- True when `lo ≤ c ≤ hi` by code point. -/
def charBetween (c lo hi : Char) : Bool :=
  decide (lo.toNat ≤ c.toNat) && decide (c.toNat ≤ hi.toNat)

/-! JSON arrays of strings.

File `cluster/config.go` stores expression lists in labels as JSON arrays of
strings via `json.Marshal` / `json.Unmarshal`.  The two functions below
model that pair for the `[]string` type: the encoder escapes the
characters Go escapes structurally (`"`?, `\`, control characters used in
practice); the decoder accepts exactly arrays of JSON strings and returns
`none` on any malformed input (the Go decoder reports an error there,
which the call sites ignore, leaving the destination slice empty). -/

def jsonEscapeChar (c : Char) : List Char :=
  if c = '"' then ['\\', '"']
  else if c = '\\' then ['\\', '\\']
  else if c = '\n' then ['\\', 'n']
  else if c = '\r' then ['\\', 'r']
  else if c = '\t' then ['\\', 't']
  else [c]

def jsonQuote (s : String) : String :=
  ⟨'"' :: (s.data.flatMap jsonEscapeChar) ++ ['"']⟩

/-- Model of `json.Marshal` on a `[]string` value. -/
def jsonMarshalStringList (l : List String) : String :=
  "[" ++ String.intercalate "," (l.map jsonQuote) ++ "]"

def jsonIsWs (c : Char) : Bool := c == ' ' || c == '\t' || c == '\n' || c == '\r'

def jsonSkipWs : List Char → List Char
  | [] => []
  | c :: rest => if jsonIsWs c then jsonSkipWs rest else c :: rest

def jsonUnescape (c : Char) : Option Char :=
  if c = '"' then some '"'
  else if c = '\\' then some '\\'
  else if c = '/' then some '/'
  else if c = 'n' then some '\n'
  else if c = 'r' then some '\r'
  else if c = 't' then some '\t'
  else none

/-- Reads the body of a JSON string up to its closing quote, undoing the
escapes of `jsonEscapeChar`; returns the decoded body and the rest. -/
def jsonStringChars : List Char → Option (List Char × List Char)
  | [] => none
  | c :: rest =>
    if c = '"' then some ([], rest)
    else if c = '\\' then
      match rest with
      | [] => none
      | e :: rest' =>
        match jsonUnescape e with
        | some u =>
          match jsonStringChars rest' with
          | some (s, r) => some (u :: s, r)
          | none => none
        | none => none
    else
      match jsonStringChars rest with
      | some (s, r) => some (c :: s, r)
      | none => none

/-- Reads one or more comma-separated JSON strings followed by `]`. -/
def jsonElems : Nat → List Char → Option (List String × List Char)
  | 0, _ => none
  | fuel + 1, cs =>
    match jsonSkipWs cs with
    | '"' :: rest =>
      match jsonStringChars rest with
      | some (s, r) =>
        match jsonSkipWs r with
        | ',' :: r' =>
          match jsonElems fuel r' with
          | some (l, r'') => some (String.mk s :: l, r'')
          | none => none
        | ']' :: r' => some ([String.mk s], r')
        | _ => none
      | none => none
    | _ => none

/-- Model of `json.Unmarshal` into a `[]string` destination. -/
def jsonUnmarshalStringList (s : String) : Option (List String) :=
  match jsonSkipWs s.data with
  | '[' :: rest =>
    match jsonSkipWs rest with
    | ']' :: r => if (jsonSkipWs r).isEmpty then some [] else none
    | _ =>
      match jsonElems (s.data.length + 1) rest with
      | some (l, r) => if (jsonSkipWs r).isEmpty then some l else none
      | none => none
  | _ => none

/-! Regular expressions.

Method `expr.Match` feeds its value string directly to `regexp.MatchString`.
The model below covers the RE2 fragment needed by the statements proved
here: literals, simple escapes, `.`, the anchors `^` and `$`, and the
postfix operators `*`, `+`, `?`.  Constructs outside the fragment
(classes, groups, alternation, escaped letters) are rejected by the
compiler, and — faithfully to RE2 — a postfix operator with no operand
(such as the bare pattern `*`) is a compilation error. -/

inductive Re where
  | eps
  | lit (c : Char)
  | dot
  | bol
  | eol
  | seq (a b : Re)
  | alt (a b : Re)
  | star (a : Re)
deriving DecidableEq

/-- Parses a pattern into a reversed list of items; `none` is a
compilation error. -/
def reParseLoop : List Char → List Re → Option (List Re)
  | [], acc => some acc
  | c :: rest, acc =>
    if c = '*' then
      match acc with
      | a :: as => reParseLoop rest (Re.star a :: as)
      | [] => none
    else if c = '+' then
      match acc with
      | a :: as => reParseLoop rest (Re.seq a (Re.star a) :: as)
      | [] => none
    else if c = '?' then
      match acc with
      | a :: as => reParseLoop rest (Re.alt a Re.eps :: as)
      | [] => none
    else if c = '^' then reParseLoop rest (Re.bol :: acc)
    else if c = '$' then reParseLoop rest (Re.eol :: acc)
    else if c = '.' then reParseLoop rest (Re.dot :: acc)
    else if c = '\\' then
      match rest with
      | [] => none
      | e :: rest' => if e.isAlphanum then none else reParseLoop rest' (Re.lit e :: acc)
    else if c = '(' || c = ')' || c = '[' || c = ']' || c = '|' then none
    else reParseLoop rest (Re.lit c :: acc)

def reSeqAll : List Re → Re
  | [] => Re.eps
  | r :: rs => Re.seq r (reSeqAll rs)

/-- Model of `regexp.Compile`; `none` is a compilation error. -/
def compileRegex (pat : String) : Option Re :=
  match reParseLoop pat.data [] with
  | some items => some (reSeqAll items.reverse)
  | none => none

/-- All positions reachable by matching `re` inside `s` starting at
position `i`.  The fuel only bounds the recursion; it is always supplied
large enough by `reSearch`. -/
def reRun : Nat → List Char → Re → Nat → List Nat
  | 0, _, _, _ => []
  | fuel + 1, s, re, i =>
    match re with
    | Re.eps => [i]
    | Re.lit c =>
      match s.get? i with
      | some c' => if c' = c then [i + 1] else []
      | none => []
    | Re.dot =>
      match s.get? i with
      | some c' => if c' = '\n' then [] else [i + 1]
      | none => []
    | Re.bol => if i = 0 then [i] else []
    | Re.eol => if i = s.length then [i] else []
    | Re.seq a b => (reRun fuel s a i).flatMap (fun j => reRun fuel s b j)
    | Re.alt a b => reRun fuel s a i ++ reRun fuel s b i
    | Re.star a =>
      i :: (reRun fuel s a i).flatMap (fun j => if i < j then reRun fuel s (Re.star a) j else [])

/-- Structural size of a pattern, used to choose a sufficient fuel. -/
def reSize : Re → Nat
  | Re.eps | Re.lit _ | Re.dot | Re.bol | Re.eol => 1
  | Re.seq a b | Re.alt a b => reSize a + reSize b + 1
  | Re.star a => reSize a + 1

/-- Unanchored search: the compiled pattern may match starting at any
position, as `regexp.MatchString` does. -/
def reSearch (r : Re) (s : List Char) : Bool :=
  (List.range (s.length + 1)).any
    (fun i => !(reRun ((reSize r + 1) * (s.length + 2)) s r i).isEmpty)

/-- Model of `regexp.MatchString pat s`: `none` when the pattern does not
compile (Go returns `(false, err)` there), otherwise the search result. -/
def regexpMatchString (pat s : String) : Option Bool :=
  match compileRegex pat with
  | some r => some (reSearch r s.data)
  | none => none

/-! Embedding of scheduler/filter/expr.go. -/

/-- Constant `EQ` from the `iota` block of expr.go. -/
def EQ : Nat := 0

/-- Constant `NOTEQ` from the `iota` block of expr.go. -/
def NOTEQ : Nat := 1

/-- The `expr` struct of expr.go. -/
structure Expr where
  key : String
  operator : Nat
  value : String
deriving DecidableEq

/-- Validity of an expression key: the pattern
`^(?i)[a-z_][a-z0-9\-_]+$` of expr.go line 37, unfolded into its
character-class meaning (note it requires at least two characters). -/
def validKey (s : String) : Bool :=
  match s.data with
  | c :: c2 :: rest => isKeyStartChar c && isKeyChar c2 && rest.all isKeyChar
  | _ => false
where
  isKeyStartChar (c : Char) : Bool :=
    charBetween c 'a' 'z' || charBetween c 'A' 'Z' || c == '_'
  isKeyChar (c : Char) : Bool :=
    charBetween c 'a' 'z' || charBetween c 'A' 'Z' || charBetween c '0' '9' ||
      c == '-' || c == '_'

/-- Validity of an expression value: the pattern
`^(?i)[=!\/]?[a-z0-9:\-_\.\*/\(\)\?\+\[\]\\\^\$]+$` of expr.go line 51,
unfolded into its character-class meaning. -/
def validValue (s : String) : Bool :=
  match s.data with
  | [] => false
  | c :: rest =>
    (isValueChar c && rest.all isValueChar) ||
    ((c == '=' || c == '!' || c == '/') && !rest.isEmpty && rest.all isValueChar)
where
  isValueChar (c : Char) : Bool :=
    charBetween c 'a' 'z' || charBetween c 'A' 'Z' || charBetween c '0' '9' ||
      ":-_.*/()?+[]\\^$".data.contains c

/-- Scans `entry` for the first operator of `OPERATORS = ["==", "!="]`
that occurs in it and splits at that operator's first occurrence,
returning the operator index and the two parts (expr.go lines 30-33). -/
def findOp (entry : String) : Option (Nat × String × String) :=
  match splitFirstSub ['=', '='] entry.data with
  | some (l, r) => some (EQ, String.mk l, String.mk r)
  | none =>
    match splitFirstSub ['!', '='] entry.data with
    | some (l, r) => some (NOTEQ, String.mk l, String.mk r)
    | none => none

/-- Function `parseExprs` of expr.go: collects the expressions carried by env
entries with the given `key:` marker; any invalid entry aborts the whole
parse with a descriptive error. -/
def parseExprs (key : String) : List String → Except String (List Expr)
  | [] => Except.ok []
  | e :: rest =>
    if hasPref e (key ++ ":") then
      let entry : String := ⟨e.data.drop (key ++ ":").data.length⟩
      match findOp entry with
      | none => Except.error "One of operator ==, != is expected"
      | some (i, k0, v0) =>
        if validKey k0 = false then Except.error ("Key '" ++ k0 ++ "' is invalid")
        else if validValue v0 = false then Except.error ("Value '" ++ v0 ++ "' is invalid")
        else
          match parseExprs key rest with
          | Except.ok es => Except.ok (⟨strToLower k0, i, v0⟩ :: es)
          | Except.error msg => Except.error msg
    else parseExprs key rest

/-- One env entry is bad for `parseExprs` when, after removing the
`key:` marker, it contains no operator, or its key or value part fails
validation. -/
def entryBad (entry : String) : Bool :=
  match findOp entry with
  | none => true
  | some (_, k0, v0) => !validKey k0 || !validValue v0

/-- True exactly on the error results of `parseExprs`. -/
def isParseError : Except String (List Expr) → Bool
  | Except.error _ => true
  | Except.ok _ => false

/-- The loop of `expr.Match` (expr.go lines 81-87): `match` ends up true
exactly when some candidate produced a successful regex match; a
compilation error yields `(false, err)` and the loop goes on. -/
def matchAny (v : String) : List String → Bool
  | [] => false
  | w :: ws => if (regexpMatchString v w).getD false then true else matchAny v ws

/-- Method `expr.Match` of expr.go lines 75-97. -/
def Expr.Match (e : Expr) (whats : List String) : Bool :=
  let m := matchAny e.value whats
  if e.operator = EQ then m
  else if e.operator = NOTEQ then !m
  else false

/-! Embedding of cluster/config.go. -/

/-- Struct `ContainerConfig` restricted to the two fields the verified claims
touch (`Env` and `Labels` of the embedded `container.Config`); the Go
label map is an association list with first-match lookup. -/
structure ContainerConfig where
  labels : List (String × String)
  env : List String
deriving DecidableEq

/-- Go map read `labels[k]` (first matching key). -/
def lookupLabel : List (String × String) → String → Option String
  | [], _ => none
  | (k', v) :: rest, k => if k' = k then some v else lookupLabel rest k

/-- Go map write `labels[k] = v`. -/
def setLabel : List (String × String) → String → String → List (String × String)
  | [], k, v => [(k, v)]
  | (k', v') :: rest, k, v =>
    if k' = k then (k, v) :: rest else (k', v') :: setLabel rest k v

/-- Constant `SwarmLabelNamespace` of config.go. -/
def SwarmLabelNamespace : String := "com.docker.swarm"

def affinitiesLabel : String := SwarmLabelNamespace ++ ".affinities"
def constraintsLabel : String := SwarmLabelNamespace ++ ".constraints"
def reschedulePoliciesLabel : String := SwarmLabelNamespace ++ ".reschedule-policies"
def checkpointTimeLabel : String := SwarmLabelNamespace ++ ".checkpoint-time"
def swarmIdLabel : String := SwarmLabelNamespace ++ ".id"

/-- Function `parseEnv` of config.go: splits at the first `:`; entries without a
colon are not recognized. -/
def parseEnv (e : String) : Option (String × String) :=
  match splitFirstSub [':'] e.data with
  | some (l, r) => some (String.mk l, String.mk r)
  | none => none

/-- The env loop of `BuildContainerConfig` (config.go lines 106-118):
one pass over env distributing each entry to one of the four expression
lists or to the surviving env. -/
structure SwarmEnvSplit where
  affinities : List String
  constraints : List String
  reschedulePolicies : List String
  checkpointTime : List String
  env : List String
deriving DecidableEq

def splitSwarmEnv : List String → SwarmEnvSplit
  | [] => ⟨[], [], [], [], []⟩
  | e :: rest =>
    let s := splitSwarmEnv rest
    match parseEnv e with
    | some (k, v) =>
      if k = "affinity" then { s with affinities := v :: s.affinities }
      else if k = "constraint" then { s with constraints := v :: s.constraints }
      else if k = "reschedule" then { s with reschedulePolicies := v :: s.reschedulePolicies }
      else if k = "checkpoint-time" then { s with checkpointTime := v :: s.checkpointTime }
      else { s with env := e :: s.env }
    | none => { s with env := e :: s.env }

/-- Reading one expression list out of a label (config.go lines 86-103
and `extractExprs`): an absent label or one that fails to unmarshal
leaves the list empty, the error being ignored. -/
def labelStringList (labels : List (String × String)) (k : String) : List String :=
  match lookupLabel labels k with
  | some s => (jsonUnmarshalStringList s).getD []
  | none => []

/-- Writing one expression list back into a label (config.go lines
124-149): nothing is written when the list is empty. -/
def storeList (labels : List (String × String)) (k : String) (l : List String) :
    List (String × String) :=
  if l.isEmpty then labels else setLabel labels k (jsonMarshalStringList l)

/-- Function `BuildContainerConfig` of config.go lines 71-152, restricted to its
effect on `Labels` and `Env`: the four expression lists are read from
labels, extended by the payloads moved out of env, and written back (in
the source's order: affinities, constraints, reschedule-policies,
checkpoint-time). -/
def BuildContainerConfig (c : ContainerConfig) : ContainerConfig :=
  let parts := splitSwarmEnv c.env
  { labels :=
      storeList
        (storeList
          (storeList
            (storeList c.labels
              affinitiesLabel (labelStringList c.labels affinitiesLabel ++ parts.affinities))
            constraintsLabel (labelStringList c.labels constraintsLabel ++ parts.constraints))
          reschedulePoliciesLabel
            (labelStringList c.labels reschedulePoliciesLabel ++ parts.reschedulePolicies))
        checkpointTimeLabel
          (labelStringList c.labels checkpointTimeLabel ++ parts.checkpointTime),
    env := parts.env }

/-- An env entry recognized (and consumed) by the env loop of
`BuildContainerConfig`. -/
def isSwarmEnvEntry (e : String) : Bool :=
  match parseEnv e with
  | some (k, _) =>
    k == "affinity" || k == "constraint" || k == "reschedule" || k == "checkpoint-time"
  | none => false

/-- The payloads carried by env entries with marker `k:`, in order. -/
def envPayloads (k : String) (env : List String) : List String :=
  env.filterMap (fun e =>
    match parseEnv e with
    | some (k', v) => if k' = k then some v else none
    | none => none)

/-- Method `ContainerConfig.extractExprs` of config.go lines 154-162. -/
def extractExprs (c : ContainerConfig) (key : String) : List String :=
  labelStringList c.labels (SwarmLabelNamespace ++ "." ++ key)

/-- Method `ContainerConfig.SwarmID` of config.go: the reserved id label, empty
string when absent (Go map zero value). -/
def ContainerConfig.SwarmID (c : ContainerConfig) : String :=
  (lookupLabel c.labels swarmIdLabel).getD ""

/-- Method `ContainerConfig.HasReschedulePolicy` of config.go lines 237-245. -/
def HasReschedulePolicy (c : ContainerConfig) (p : String) : Bool :=
  (extractExprs c "reschedule-policies").any (fun rp => rp == p)

/-- Method `ContainerConfig.Validate` of config.go lines 259-278; `none` models
a nil error, `some msg` the returned error message. -/
def Validate (c : ContainerConfig) : Option String :=
  let reschedulePolicies := extractExprs c "reschedule-policies"
  if reschedulePolicies.length > 1 then some "too many reschedule policies"
  else
    match reschedulePolicies with
    | [p] =>
      if ["off", "on-node-failure", "restore"].any (fun v => v == p) then none
      else some ("invalid reschedule policy: " ++ p)
    | _ => none

/-! Embedding of cluster/container.go, registry lookup `Containers.Get`. -/

/-- Function `stringid.TruncateID`: drop any algorithm marker up to the first
`:`, then keep at most 12 characters. -/
def TruncateID (id : String) : String :=
  match splitFirstSub [':'] id.data with
  | some (_, r) => ⟨r.take 12⟩
  | none => ⟨id.data.take 12⟩

/-- The engine fields `Containers.Get` reads. -/
structure Engine where
  id : String
  name : String
deriving DecidableEq

/-- The container fields `Containers.Get` reads. -/
structure Container where
  id : String
  names : List String
  config : ContainerConfig
  engine : Engine
deriving DecidableEq

/-- Type `Containers` of container.go. -/
abbrev Containers := List Container

/-- First loop of `Containers.Get` (lines 68-72): exact or truncated
container ID. -/
def findIdMatch : Containers → String → Option Container
  | [], _ => none
  | c :: rest, q =>
    if c.id = q || TruncateID c.id = q then some c else findIdMatch rest q

/-- Second loop of `Containers.Get` (lines 75-79): exact or truncated
swarm ID. -/
def findSwarmIdMatch : Containers → String → Option Container
  | [], _ => none
  | c :: rest, q =>
    if c.config.SwarmID = q || TruncateID c.config.SwarmID = q then some c
    else findSwarmIdMatch rest q

/-- The name criterion of `Containers.Get` (lines 84-94): name, /name,
engine-id/name or engine-name/name (stored names begin with `/`). -/
def nameMatches (c : Container) (q : String) : Bool :=
  c.names.any (fun name =>
    name == q || name == "/" ++ q || c.engine.id ++ name == q || c.engine.name ++ name == q)

/-- Method `Containers.Get` of container.go lines 61-121. -/
def Containers.Get (containers : Containers) (IDOrName : String) : Option Container :=
  if IDOrName = "" then none
  else
    match findIdMatch containers IDOrName with
    | some c => some c
    | none =>
      match findSwarmIdMatch containers IDOrName with
      | some c => some c
      | none =>
        match containers.filter (fun c => nameMatches c IDOrName) with
        | [c] => some c
        | _ :: _ :: _ => none
        | [] =>
          match containers.filter (fun c => hasPref c.id IDOrName) ++
                containers.filter (fun c => hasPref c.config.SwarmID IDOrName) with
          | [c] => some c
          | _ => none

/-! Embedding of cluster/container.go, older `Cluster` coordinator. -/

/-- A node as `Cluster.AddNode` sees it: its ID, name, and the result of
`IsConnected()`. -/
structure Node where
  id : String
  name : String
  connected : Bool
deriving DecidableEq

/-- The two sentinel errors of the older cluster code. -/
inductive AddNodeError where
  | notConnected
  | alreadyRegistered
deriving DecidableEq

/-- The cluster state `AddNode` touches: the `nodes` map, kept as a list
of nodes whose ids act as the map keys.  (`refreshContainers` and the
event subscription on the success path only talk to the remote engine
and do not change the node map.) -/
structure Cluster where
  nodes : List Node
deriving DecidableEq

/-- Method `Cluster.AddNode` of container.go lines 230-248 (old coordinator):
reject unconnected nodes, reject duplicate ids, otherwise register. -/
def Cluster.AddNode (c : Cluster) (n : Node) : Cluster × Option AddNodeError :=
  if !n.connected then (c, some AddNodeError.notConnected)
  else if c.nodes.any (fun m => m.id == n.id) then (c, some AddNodeError.alreadyRegistered)
  else (⟨c.nodes ++ [n]⟩, none)

/-- Folding a sequence of `AddNode` calls, each failed call leaving the
state unchanged (the Go method does not touch the map on error). -/
def addNodes (c : Cluster) (ns : List Node) : Cluster :=
  ns.foldl (fun s n => (s.AddNode n).1) c

/-- The node fields the older `Cluster.Container` lookup reads. -/
structure VidNode where
  id : String
  name : String
deriving DecidableEq

/-- The container fields the older `Cluster.Container` lookup reads
(`VirtualId` is the swarm-assigned virtual id). -/
structure VidContainer where
  id : String
  virtualId : String
  names : List String
  node : VidNode
deriving DecidableEq

/-- The per-container test of `Cluster.Container` (lines 292-304):
virtual-id prefix first, then the name forms; first hit wins. -/
def vidContainerFind (q : String) : List VidContainer → Option VidContainer
  | [] => none
  | c :: rest =>
    if hasPref c.virtualId q then some c
    else if c.names.any (fun name =>
        name == q || name == "/" ++ q || c.node.id ++ name == q || c.node.name ++ name == q) then
      some c
    else vidContainerFind q rest

/-- Method `Cluster.Container` of container.go lines 284-307 (old coordinator),
with the receiver's containers map flattened into a list. -/
def clusterContainerLookup (containers : List VidContainer) (IdOrName : String) :
    Option VidContainer :=
  if IdOrName = "" then none else vidContainerFind IdOrName containers

/-! Helper lemmas about the matching loop of `expr.Match`. -/

/-- The loop of `expr.Match` computes exactly "some candidate produced a
successful regex match": a break on the first hit and the carried-over
last value agree with `List.any`. -/
theorem matchAny_eq_any (v : String) (ws : List String) :
    matchAny v ws = ws.any (fun w => (regexpMatchString v w).getD false) := by
  induction ws with
  | nil => rfl
  | cons w ws ih =>
    simp only [matchAny, List.any_cons, ih]
    cases h : (regexpMatchString v w).getD false <;> simp [h]

/-- When the value does not compile, every candidate yields
`(false, err)` in the loop, so the accumulated match is false. -/
theorem matchAny_of_compile_error (v : String) (ws : List String)
    (h : compileRegex v = none) : matchAny v ws = false := by
  induction ws with
  | nil => rfl
  | cons w ws ih =>
    simp [matchAny, regexpMatchString, h, ih]

/-- Evaluating `expr.Match` at operator `EQ` returns the loop result. -/
theorem exprMatch_EQ (k v : String) (ws : List String) :
    Expr.Match ⟨k, EQ, v⟩ ws = matchAny v ws := rfl

/-- Evaluating `expr.Match` at operator `NOTEQ` negates the loop result. -/
theorem exprMatch_NOTEQ (k v : String) (ws : List String) :
    Expr.Match ⟨k, NOTEQ, v⟩ ws = !matchAny v ws := rfl

/-- C1 (counterexample).  The claim asserts that `Match` on value
`"/^foo$"` with candidate `"foo"` returns true (leading-slash regex
handling).  The code passes the value verbatim to `regexp.MatchString`,
where the pattern `/^foo$` demands a literal `/` before the
start-of-text anchor and therefore never matches: `Match` returns
false. -/
theorem c1_counterexample :
    Expr.Match ⟨"label", EQ, "/^foo$"⟩ ["foo"] = false := by decide

/-- C1 (amended).  `expr.Match` applies the expression value directly as
a regular expression, unanchored and with no leading-slash, glob or
case-insensitive special-casing: with operator `EQ` it returns true iff
some candidate contains a match of the value.  In particular `Match` on
value `"/^foo$"` with candidate `"foo"` returns false, and `Match` on
value `"*"` (a regex that fails to compile) returns false for every
candidate under `EQ`. -/
theorem exprMatch_regexp_semantics :
    (∀ (k v : String) (ws : List String),
      Expr.Match ⟨k, EQ, v⟩ ws = ws.any (fun w => (regexpMatchString v w).getD false))
    ∧ Expr.Match ⟨"label", EQ, "/^foo$"⟩ ["foo"] = false
    ∧ (∀ w : String, Expr.Match ⟨"label", EQ, "*"⟩ [w] = false) := by
  refine ⟨fun k v ws => ?_, by decide, fun w => ?_⟩
  · rw [exprMatch_EQ, matchAny_eq_any]
  · rw [exprMatch_EQ, matchAny_of_compile_error _ _ (by decide)]

/-- C2 (counterexample).  With operator `NEQ`, value `"a"` and
candidates `["a", "b"]`, the candidate `"b"` does not match the value,
so by the claim `Match` should return true; the code negates "some
candidate matches", and since `"a"` matches, `Match` returns false. -/
theorem c2_counterexample :
    (regexpMatchString "a" "b").getD false = false
    ∧ Expr.Match ⟨"k", NOTEQ, "a"⟩ ["a", "b"] = false := by decide

/-- C2 (amended).  For a non-empty candidate list, `expr.Match` returns
true iff: for `==`, some candidate matches the value; for `!=`, no
candidate matches the value (not "some candidate does not match"). -/
theorem exprMatch_operator_semantics (k v : String) (ws : List String) (_h : ws ≠ []) :
    (Expr.Match ⟨k, EQ, v⟩ ws = true
      ↔ ∃ w ∈ ws, (regexpMatchString v w).getD false = true)
    ∧ (Expr.Match ⟨k, NOTEQ, v⟩ ws = true
      ↔ ∀ w ∈ ws, (regexpMatchString v w).getD false = false) := by
  constructor
  · rw [exprMatch_EQ, matchAny_eq_any]
    exact List.any_eq_true
  · rw [exprMatch_NOTEQ, matchAny_eq_any]
    simp only [Bool.not_eq_true', List.any_eq_false]
    simp

/-- Witness for the amended C2 at value `"a"` and candidates
`["a", "b"]`. -/
theorem exprMatch_operator_semantics_witness :
    (Expr.Match ⟨"k", EQ, "a"⟩ ["a", "b"] = true
      ↔ ∃ w ∈ ["a", "b"], (regexpMatchString "a" w).getD false = true)
    ∧ (Expr.Match ⟨"k", NOTEQ, "a"⟩ ["a", "b"] = true
      ↔ ∀ w ∈ ["a", "b"], (regexpMatchString "a" w).getD false = false) :=
  exprMatch_operator_semantics "k" "a" ["a", "b"] (by decide)

/-- C8 (counterexample).  The claim asserts `Match` returns false on a
non-compiling value regardless of the operator; the code keeps
`match = false` and then negates it for `NEQ`, returning true. -/
theorem c8_counterexample :
    compileRegex "*" = none ∧ Expr.Match ⟨"k", NOTEQ, "*"⟩ ["x"] = true := by decide

/-- C8 (amended).  When the expression value fails to compile as a
regular expression, `expr.Match` is still total (the error is only
logged): every candidate is considered non-matching, so `Match` returns
false for operator `EQ` and true for operator `NEQ`. -/
theorem exprMatch_compile_error (k v : String) (ws : List String)
    (h : compileRegex v = none) :
    Expr.Match ⟨k, EQ, v⟩ ws = false ∧ Expr.Match ⟨k, NOTEQ, v⟩ ws = true := by
  rw [exprMatch_EQ, exprMatch_NOTEQ, matchAny_of_compile_error _ _ h]
  exact ⟨rfl, rfl⟩

/-- Witness for the amended C8 at the non-compiling value `"*"`. -/
theorem exprMatch_compile_error_witness :
    Expr.Match ⟨"k", EQ, "*"⟩ ["x"] = false
    ∧ Expr.Match ⟨"k", NOTEQ, "*"⟩ ["x"] = true :=
  exprMatch_compile_error "k" "*" ["x"] (by decide)

/-! Claim C4: parse failures abort the whole parse. -/

/-- An error result for the tail yields an error result for the whole
list, whatever the head entry looks like. -/
theorem parseExprs_cons_error (key e : String) (rest : List String)
    (h : isParseError (parseExprs key rest) = true) :
    isParseError (parseExprs key (e :: rest)) = true := by
  simp only [parseExprs]
  by_cases hp : hasPref e (key ++ ":") = true
  · rw [if_pos hp]
    cases hop : findOp ⟨e.data.drop (key ++ ":").data.length⟩ with
    | none => rfl
    | some t =>
      obtain ⟨i, k0, v0⟩ := t
      simp only []
      by_cases hk : validKey k0 = false
      · rw [if_pos hk]; rfl
      · rw [if_neg hk]
        by_cases hv : validValue v0 = false
        · rw [if_pos hv]; rfl
        · rw [if_neg hv]
          cases hrest : parseExprs key rest with
          | error m => rfl
          | ok es => rw [hrest] at h; exact absurd h (by simp [isParseError])
  · rw [if_neg hp]; exact h

/-- A bad head entry carrying the marker produces an error result. -/
theorem parseExprs_head_bad (key e : String) (rest : List String)
    (hp : hasPref e (key ++ ":") = true)
    (hbad : entryBad ⟨e.data.drop (key ++ ":").data.length⟩ = true) :
    isParseError (parseExprs key (e :: rest)) = true := by
  unfold entryBad at hbad
  simp only [parseExprs]
  rw [if_pos hp]
  cases hop : findOp ⟨e.data.drop (key ++ ":").data.length⟩ with
  | none => rfl
  | some t =>
    obtain ⟨i, k0, v0⟩ := t
    simp only []
    rw [hop] at hbad
    simp only [] at hbad
    by_cases hk : validKey k0 = false
    · rw [if_pos hk]; rfl
    · have hv : validValue v0 = false := by
        cases h1 : validKey k0 <;> cases h2 : validValue v0 <;> simp_all
      rw [if_neg hk, if_pos hv]; rfl

/-- C4.  Whenever some env entry carries the given `key:` marker and is
bad — it contains neither `==` nor `!=`, or its key part fails
validation (for example a leading digit), or its value part fails
validation (for example an empty value) — `parseExprs` returns an error
and no expression list, with no partial acceptance of other entries. -/
theorem parseExprs_error_on_bad_entry (key : String) (env : List String)
    (h : ∃ e ∈ env, hasPref e (key ++ ":") = true
          ∧ entryBad ⟨e.data.drop (key ++ ":").data.length⟩ = true) :
    ∃ msg, parseExprs key env = Except.error msg := by
  have herr : isParseError (parseExprs key env) = true := by
    induction env with
    | nil => simp at h
    | cons e rest ih =>
      obtain ⟨e', he', hpref, hbad⟩ := h
      rcases List.mem_cons.mp he' with rfl | hmem
      · exact parseExprs_head_bad key e' rest hpref hbad
      · exact parseExprs_cons_error key e rest (ih ⟨e', hmem, hpref, hbad⟩)
  cases hres : parseExprs key env with
  | error m => exact ⟨m, rfl⟩
  | ok es => rw [hres] at herr; exact absurd herr (by simp [isParseError])

/-- Witness for C4: a leading-digit key, an empty value, and a missing
operator each abort the parse, the last one even though it follows a
well-formed entry. -/
theorem parseExprs_error_witness :
    (∃ msg, parseExprs "constraint" ["constraint:1a==x"] = Except.error msg)
    ∧ (∃ msg, parseExprs "constraint" ["constraint:ab=="] = Except.error msg)
    ∧ (∃ msg, parseExprs "constraint"
        ["constraint:region==us", "constraint:abc"] = Except.error msg) :=
  ⟨parseExprs_error_on_bad_entry _ _ ⟨"constraint:1a==x", by decide, by decide, by decide⟩,
   parseExprs_error_on_bad_entry _ _ ⟨"constraint:ab==", by decide, by decide, by decide⟩,
   parseExprs_error_on_bad_entry _ _ ⟨"constraint:abc", by decide, by decide, by decide⟩⟩

/-! Claim C7: reschedule-policy validation. -/

/-- C7 (counterexample).  The claim allows exactly `off` and
`on-node-failure` as the single reschedule policy, but `Validate` also
accepts `restore`, so "succeeds iff the policy lies in
{off, on-node-failure}" fails at the policy `restore`. -/
theorem validate_restore_counterexample :
    extractExprs ⟨[(reschedulePoliciesLabel, "[\"restore\"]")], []⟩ "reschedule-policies"
      = ["restore"]
    ∧ Validate ⟨[(reschedulePoliciesLabel, "[\"restore\"]")], []⟩ = none
    ∧ ¬("restore" = "off" ∨ "restore" = "on-node-failure") := by decide

/-- C7 (amended).  `Validate` answers `too many reschedule policies` for
every config whose reschedule-policies list has more than one entry; for
a config with exactly one policy it succeeds iff the policy lies in
{off, on-node-failure, restore}; and `HasReschedulePolicy p` holds
whenever the reschedule-policies label contains `p`. -/
theorem validate_reschedule_spec (c : ContainerConfig) :
    ((extractExprs c "reschedule-policies").length > 1 →
      Validate c = some "too many reschedule policies")
    ∧ (∀ p, extractExprs c "reschedule-policies" = [p] →
      (Validate c = none ↔ (p = "off" ∨ p = "on-node-failure" ∨ p = "restore")))
    ∧ (∀ p, p ∈ extractExprs c "reschedule-policies" → HasReschedulePolicy c p = true) := by
  refine ⟨fun hlen => ?_, fun p hp => ?_, fun p hp => ?_⟩
  · simp only [Validate]
    rw [if_pos hlen]
  · simp only [Validate]
    rw [hp]
    have hone : ¬([p].length > 1) := by simp
    rw [if_neg hone]
    simp only []
    by_cases hany : (["off", "on-node-failure", "restore"].any (fun v => v == p)) = true
    · rw [if_pos hany]
      simp only [List.any_cons, List.any_nil, Bool.or_eq_true, beq_iff_eq] at hany
      refine iff_of_true rfl ?_
      rcases hany with h | h | h | h
      · exact Or.inl h.symm
      · exact Or.inr (Or.inl h.symm)
      · exact Or.inr (Or.inr h.symm)
      · cases h
    · rw [if_neg hany]
      refine iff_of_false (by simp) ?_
      intro hcon
      exact hany (by rcases hcon with rfl | rfl | rfl <;> decide)
  · unfold HasReschedulePolicy
    exact List.any_eq_true.mpr ⟨p, hp, by simp⟩

/-- Witness for the amended C7: two policies trigger the
`too many reschedule policies` error, and a single `on-node-failure`
policy validates and is reported by `HasReschedulePolicy`. -/
theorem validate_reschedule_witness :
    Validate ⟨[(reschedulePoliciesLabel, "[\"a\",\"b\"]")], []⟩
      = some "too many reschedule policies"
    ∧ (Validate ⟨[(reschedulePoliciesLabel, "[\"on-node-failure\"]")], []⟩ = none
        ↔ ("on-node-failure" = "off" ∨ "on-node-failure" = "on-node-failure"
            ∨ "on-node-failure" = "restore"))
    ∧ HasReschedulePolicy ⟨[(reschedulePoliciesLabel, "[\"on-node-failure\"]")], []⟩
        "on-node-failure" = true :=
  ⟨(validate_reschedule_spec _).1 (by decide),
   (validate_reschedule_spec _).2.1 "on-node-failure" (by decide),
   (validate_reschedule_spec _).2.2 "on-node-failure" (by decide)⟩

/-! Claim C9: node registration. -/

/-- One `AddNode` call preserves distinctness of the registered ids. -/
theorem addNode_preserves_nodup (c : Cluster) (n : Node)
    (h : (c.nodes.map Node.id).Nodup) :
    (((c.AddNode n).1).nodes.map Node.id).Nodup := by
  cases hcon : n.connected with
  | false => simpa [Cluster.AddNode, hcon] using h
  | true =>
    by_cases hex : (c.nodes.any (fun m => m.id == n.id)) = true
    · simpa [Cluster.AddNode, hcon, hex] using h
    · have hex' : c.nodes.any (fun m => m.id == n.id) = false := by
        cases hval : c.nodes.any (fun m => m.id == n.id)
        · rfl
        · exact absurd hval hex
      rw [show (c.AddNode n).1 = ⟨c.nodes ++ [n]⟩ from by simp [Cluster.AddNode, hcon, hex']]
      rw [List.map_append, List.nodup_append_comm]
      rw [show List.map Node.id [n] ++ c.nodes.map Node.id = n.id :: c.nodes.map Node.id from rfl]
      rw [List.nodup_cons]
      refine ⟨?_, h⟩
      intro hmem
      obtain ⟨m, hm, hid⟩ := List.mem_map.mp hmem
      have := List.any_eq_false.mp hex' m hm
      simp [hid] at this

/-- A whole sequence of `AddNode` calls preserves distinctness of the
registered ids. -/
theorem addNodes_nodup (c : Cluster) (ns : List Node)
    (h : (c.nodes.map Node.id).Nodup) :
    ((addNodes c ns).nodes.map Node.id).Nodup := by
  induction ns generalizing c with
  | nil => exact h
  | cons n ns ih =>
    simp only [addNodes, List.foldl_cons]
    exact ih _ (addNode_preserves_nodup c n h)

/-- C9.  `AddNode` returns the sentinel `ErrNodeNotConnected` on an
unconnected node and `ErrNodeAlreadyRegistered` when a node with the
same id is registered, leaving the node map unchanged in both error
cases; and any sequence of `AddNode` calls keeps the registered node ids
pairwise distinct. -/
theorem addNode_spec (c : Cluster) (n : Node) :
    (n.connected = false → c.AddNode n = (c, some AddNodeError.notConnected))
    ∧ (n.connected = true → (∃ m ∈ c.nodes, m.id = n.id) →
        c.AddNode n = (c, some AddNodeError.alreadyRegistered))
    ∧ (∀ ns : List Node, (c.nodes.map Node.id).Nodup →
        ((addNodes c ns).nodes.map Node.id).Nodup) := by
  refine ⟨fun h => ?_, fun hcon hex => ?_, fun ns h => addNodes_nodup c ns h⟩
  · simp [Cluster.AddNode, h]
  · have hany : c.nodes.any (fun m => m.id == n.id) = true :=
      List.any_eq_true.mpr (by obtain ⟨m, hm, hid⟩ := hex; exact ⟨m, hm, by simp [hid]⟩)
    simp [Cluster.AddNode, hcon, hany]

/-- Witness for C9: a disconnected node is refused, a duplicate id is
refused with the cluster unchanged, and a mixed sequence of calls leaves
distinct ids registered. -/
theorem addNode_witness :
    Cluster.AddNode ⟨[]⟩ ⟨"test", "test", false⟩ = (⟨[]⟩, some AddNodeError.notConnected)
    ∧ Cluster.AddNode ⟨[⟨"test", "test", true⟩]⟩ ⟨"test", "t2", true⟩
        = (⟨[⟨"test", "test", true⟩]⟩, some AddNodeError.alreadyRegistered)
    ∧ ((addNodes ⟨[]⟩
          [⟨"test", "test", true⟩, ⟨"test", "t2", true⟩, ⟨"test2", "x", true⟩]).nodes.map
        Node.id).Nodup :=
  ⟨(addNode_spec _ _).1 rfl,
   (addNode_spec _ _).2.1 rfl ⟨⟨"test", "test", true⟩, by decide, rfl⟩,
   (addNode_spec ⟨[]⟩ ⟨"test", "test", true⟩).2.2 _ (by decide)⟩

/-! Claims C5, C6, C10: registry lookup `Containers.Get`. -/

/-- C5 (counterexample).  Two containers named `web` live on different
engines, but a third container's engine-assigned ID is literally `web`;
the ID steps run before the name step, so `Get "web"` returns that third
container instead of the null the claim requires. -/
theorem get_name_ambiguity_counterexample :
    (([⟨"aaa", ["/web"], ⟨[], []⟩, ⟨"e1", "engine1"⟩⟩,
       ⟨"bbb", ["/web"], ⟨[], []⟩, ⟨"e2", "engine2"⟩⟩,
       ⟨"web", [], ⟨[], []⟩, ⟨"e3", "engine3"⟩⟩] : Containers).filter
      (fun c => nameMatches c "web")).length = 2
    ∧ Containers.Get
        [⟨"aaa", ["/web"], ⟨[], []⟩, ⟨"e1", "engine1"⟩⟩,
         ⟨"bbb", ["/web"], ⟨[], []⟩, ⟨"e2", "engine2"⟩⟩,
         ⟨"web", [], ⟨[], []⟩, ⟨"e3", "engine3"⟩⟩] "web"
      = some ⟨"web", [], ⟨[], []⟩, ⟨"e3", "engine3"⟩⟩ := by decide

/-- C5 (amended).  Provided the non-empty query matches no container by
exact or truncated ID and none by exact or truncated swarm ID, the name
step decides the lookup: more than one name match yields null, and a
unique name match (for example `<engine-name>/name` naming a container
on exactly one engine) is returned. -/
theorem containersGet_name_step (cs : Containers) (q : String) (hq : q ≠ "")
    (h1 : findIdMatch cs q = none) (h2 : findSwarmIdMatch cs q = none) :
    ((cs.filter (fun c => nameMatches c q)).length ≥ 2 → Containers.Get cs q = none)
    ∧ (∀ c, cs.filter (fun c => nameMatches c q) = [c] → Containers.Get cs q = some c) := by
  unfold Containers.Get
  rw [if_neg hq, h1]
  simp only []
  rw [h2]
  simp only []
  refine ⟨fun hlen => ?_, fun c hc => ?_⟩
  · rcases hfil : cs.filter (fun c => nameMatches c q) with _ | ⟨a, _ | ⟨b, t⟩⟩
    · rw [hfil] at hlen; simp at hlen
    · rw [hfil] at hlen; simp at hlen
    · rfl
  · rw [hc]

/-- Witness for the amended C5, the spec's own scenario: engines
`engine1` and `engine2` each hold a container named `web`; `Get "web"`
is ambiguous and null while `Get "engine1/web"` returns engine1's
container. -/
theorem containersGet_name_step_witness :
    Containers.Get
      [⟨"aaa", ["/web"], ⟨[], []⟩, ⟨"e1", "engine1"⟩⟩,
       ⟨"bbb", ["/web"], ⟨[], []⟩, ⟨"e2", "engine2"⟩⟩] "web" = none
    ∧ Containers.Get
        [⟨"aaa", ["/web"], ⟨[], []⟩, ⟨"e1", "engine1"⟩⟩,
         ⟨"bbb", ["/web"], ⟨[], []⟩, ⟨"e2", "engine2"⟩⟩] "engine1/web"
      = some ⟨"aaa", ["/web"], ⟨[], []⟩, ⟨"e1", "engine1"⟩⟩ :=
  ⟨(containersGet_name_step _ "web" (by decide) (by decide) (by decide)).1 (by decide),
   (containersGet_name_step _ "engine1/web" (by decide) (by decide) (by decide)).2
     _ (by decide)⟩

/-- C6 (counterexample).  A query of length 1 that matches a container
only as an ID prefix resolves to that container instead of the null the
claim requires: no minimum prefix length is enforced. -/
theorem get_short_prefix_counterexample :
    ("a" : String).length = 1
    ∧ findIdMatch [⟨"abc", [], ⟨[], []⟩, ⟨"e", "e"⟩⟩] "a" = none
    ∧ findSwarmIdMatch [⟨"abc", [], ⟨[], []⟩, ⟨"e", "e"⟩⟩] "a" = none
    ∧ ([⟨"abc", [], ⟨[], []⟩, ⟨"e", "e"⟩⟩] : Containers).filter
        (fun c => nameMatches c "a") = []
    ∧ Containers.Get [⟨"abc", [], ⟨[], []⟩, ⟨"e", "e"⟩⟩] "a"
      = some ⟨"abc", [], ⟨[], []⟩, ⟨"e", "e"⟩⟩ := by decide

/-- C6 (amended).  Lookup on the empty string returns null in both the
registry `Containers.Get` and the older `Cluster.Container`, never the
first container; but an ID prefix of any non-zero length resolves as
soon as it is the unique prefix candidate — the source enforces no
3-character minimum. -/
theorem lookup_empty_and_prefix_resolution :
    (∀ cs : Containers, Containers.Get cs "" = none)
    ∧ (∀ vcs : List VidContainer, clusterContainerLookup vcs "" = none)
    ∧ (∀ (cs : Containers) (q : String) (c : Container), q ≠ "" →
        findIdMatch cs q = none → findSwarmIdMatch cs q = none →
        cs.filter (fun c => nameMatches c q) = [] →
        cs.filter (fun c => hasPref c.id q) ++
          cs.filter (fun c => hasPref c.config.SwarmID q) = [c] →
        Containers.Get cs q = some c) := by
  refine ⟨fun cs => by simp [Containers.Get], fun vcs => by simp [clusterContainerLookup],
    fun cs q c hq h1 h2 h3 h4 => ?_⟩
  unfold Containers.Get
  rw [if_neg hq, h1]
  simp only []
  rw [h2]
  simp only []
  rw [h3]
  simp only []
  rw [h4]

/-- Witness for the amended C6: empty lookups are null, and a length-1
prefix uniquely matching one container's ID resolves to it. -/
theorem lookup_empty_and_prefix_resolution_witness :
    Containers.Get [] "" = none
    ∧ clusterContainerLookup [] "" = none
    ∧ Containers.Get [⟨"abc", [], ⟨[], []⟩, ⟨"e", "e"⟩⟩] "a"
      = some ⟨"abc", [], ⟨[], []⟩, ⟨"e", "e"⟩⟩ :=
  ⟨lookup_empty_and_prefix_resolution.1 [],
   lookup_empty_and_prefix_resolution.2.1 [],
   lookup_empty_and_prefix_resolution.2.2 _ "a" _ (by decide) (by decide) (by decide)
     (by decide) (by decide)⟩

/-- C10.  Once the ID, swarm-ID and name steps found nothing, the
ID-prefix and swarm-ID-prefix candidates are accumulated into one list
and the lookup returns null whenever that combined list does not have
exactly one element; in particular a query that is a prefix of both a
container's ID and the same container's swarm ID puts that container in
the list twice, so the lookup returns null although only one distinct
container matches. -/
theorem containersGet_prefix_step (cs : Containers) (q : String)
    (h1 : findIdMatch cs q = none) (h2 : findSwarmIdMatch cs q = none)
    (h3 : cs.filter (fun c => nameMatches c q) = []) :
    ((cs.filter (fun c => hasPref c.id q) ++
        cs.filter (fun c => hasPref c.config.SwarmID q)).length ≠ 1 →
      Containers.Get cs q = none)
    ∧ (∀ c ∈ cs, hasPref c.id q = true → hasPref c.config.SwarmID q = true →
      Containers.Get cs q = none) := by
  have key : (cs.filter (fun c => hasPref c.id q) ++
      cs.filter (fun c => hasPref c.config.SwarmID q)).length ≠ 1 →
      Containers.Get cs q = none := by
    intro hlen
    by_cases hq : q = ""
    · simp [Containers.Get, hq]
    · unfold Containers.Get
      rw [if_neg hq, h1]
      simp only []
      rw [h2]
      simp only []
      rw [h3]
      simp only []
      rcases hcomb : cs.filter (fun c => hasPref c.id q) ++
          cs.filter (fun c => hasPref c.config.SwarmID q) with _ | ⟨a, _ | ⟨b, t⟩⟩
      · rfl
      · rw [hcomb] at hlen; simp at hlen
      · rfl
  refine ⟨key, fun c hc hcid hcsid => key ?_⟩
  have m1 : c ∈ cs.filter (fun c => hasPref c.id q) := List.mem_filter.mpr ⟨hc, hcid⟩
  have m2 : c ∈ cs.filter (fun c => hasPref c.config.SwarmID q) :=
    List.mem_filter.mpr ⟨hc, hcsid⟩
  have l1 := List.length_pos_of_mem m1
  have l2 := List.length_pos_of_mem m2
  rw [List.length_append]
  omega

/-- Witness for C10: the query `abc` is a prefix of both the ID `abcID`
and the swarm ID `abcSwarm` of the single container, and the lookup
returns null. -/
theorem containersGet_prefix_step_witness :
    Containers.Get [⟨"abcID", [], ⟨[(swarmIdLabel, "abcSwarm")], []⟩, ⟨"e", "e"⟩⟩] "abc"
      = none :=
  (containersGet_prefix_step _ "abc" (by decide) (by decide) (by decide)).2
    ⟨"abcID", [], ⟨[(swarmIdLabel, "abcSwarm")], []⟩, ⟨"e", "e"⟩⟩
    (by decide) (by decide) (by decide)

/-! Claim C3: env-to-label migration in `BuildContainerConfig`. -/

/-- The one-pass env loop computes, for each marker, the payload list of
its entries, and keeps exactly the unrecognized entries in order. -/
theorem splitSwarmEnv_eq (env : List String) :
    splitSwarmEnv env =
      ⟨envPayloads "affinity" env, envPayloads "constraint" env,
       envPayloads "reschedule" env, envPayloads "checkpoint-time" env,
       env.filter (fun e => !isSwarmEnvEntry e)⟩ := by
  induction env with
  | nil => rfl
  | cons e rest ih =>
    simp only [splitSwarmEnv, ih]
    cases h : parseEnv e with
    | none =>
      simp [envPayloads, isSwarmEnvEntry, List.filterMap_cons, List.filter_cons, h]
    | some kv =>
      obtain ⟨k, v⟩ := kv
      simp only []
      by_cases h1 : k = "affinity"
      · subst h1
        simp [envPayloads, isSwarmEnvEntry, List.filterMap_cons, List.filter_cons, h]
      · by_cases h2 : k = "constraint"
        · subst h2
          simp [envPayloads, isSwarmEnvEntry, List.filterMap_cons, List.filter_cons, h]
        · by_cases h3 : k = "reschedule"
          · subst h3
            simp [envPayloads, isSwarmEnvEntry, List.filterMap_cons, List.filter_cons, h]
          · by_cases h4 : k = "checkpoint-time"
            · subst h4
              simp [envPayloads, isSwarmEnvEntry, List.filterMap_cons, List.filter_cons, h]
            · simp [envPayloads, isSwarmEnvEntry, List.filterMap_cons, List.filter_cons, h,
                h1, h2, h3, h4]

/-- Map write then read of the same key. -/
theorem lookupLabel_setLabel_self (ls : List (String × String)) (k v : String) :
    lookupLabel (setLabel ls k v) k = some v := by
  induction ls with
  | nil => simp [setLabel, lookupLabel]
  | cons p rest ih =>
    obtain ⟨k0, v0⟩ := p
    by_cases h : k0 = k
    · simp [setLabel, lookupLabel, h]
    · simp [setLabel, lookupLabel, h, ih]

/-- Map write then read of a different key. -/
theorem lookupLabel_setLabel_ne (ls : List (String × String)) (k v k' : String)
    (h : k' ≠ k) : lookupLabel (setLabel ls k v) k' = lookupLabel ls k' := by
  induction ls with
  | nil => simp [setLabel, lookupLabel, Ne.symm h]
  | cons p rest ih =>
    obtain ⟨k0, v0⟩ := p
    by_cases h1 : k0 = k
    · subst h1
      simp [setLabel, lookupLabel, Ne.symm h]
    · by_cases h2 : k0 = k' <;> simp [setLabel, lookupLabel, h1, h2, ih, h]

/-- Storing a non-empty list under a key makes its marshalled form
readable at that key. -/
theorem lookupLabel_storeList_self (ls : List (String × String)) (k : String)
    (l : List String) (h : l ≠ []) :
    lookupLabel (storeList ls k l) k = some (jsonMarshalStringList l) := by
  unfold storeList
  rw [if_neg (by simpa using h)]
  exact lookupLabel_setLabel_self ls k _

/-- Storing a list under one key does not affect reads of another. -/
theorem lookupLabel_storeList_ne (ls : List (String × String)) (k : String)
    (l : List String) (k' : String) (h : k' ≠ k) :
    lookupLabel (storeList ls k l) k' = lookupLabel ls k' := by
  unfold storeList
  by_cases he : l.isEmpty
  · rw [if_pos he]
  · rw [if_neg he]
    exact lookupLabel_setLabel_ne ls k _ k' h

/-- Splitting at the first colon of `p ++ ":" ++ rest` when `p` itself is
colon-free. -/
theorem splitFirstSub_colon_marker (p rest : List Char) (hp : ':' ∉ p) :
    splitFirstSub [':'] (p ++ ':' :: rest) = some (p, rest) := by
  induction p with
  | nil => simp [splitFirstSub, List.isPrefixOf]
  | cons ch p ih =>
    have hch : ch ≠ ':' := fun hh => hp (by simp [hh])
    have hcond : (([':'] : List Char).isPrefixOf (ch :: (p ++ ':' :: rest))) = false := by
      cases hval : ([':'] : List Char).isPrefixOf (ch :: (p ++ ':' :: rest))
      · rfl
      · exfalso
        have hpre := List.isPrefixOf_iff_prefix.mp hval
        rw [List.cons_prefix_cons] at hpre
        exact hch hpre.1.symm
    have hp' : ':' ∉ p := fun hh => hp (List.mem_cons_of_mem _ hh)
    simp only [List.cons_append, splitFirstSub, List.append_eq, hcond, Bool.false_eq_true,
      if_false, ih hp']

/-- An env entry starting with the colon-free marker `p` followed by `:`
parses to key `p`. -/
theorem parseEnv_marker (p e : String) (hcolon : ':' ∉ p.data)
    (h : hasPref e (p ++ ":") = true) : ∃ v, parseEnv e = some (p, v) := by
  unfold hasPref at h
  obtain ⟨t, ht⟩ := List.isPrefixOf_iff_prefix.mp h
  have hdata : (p ++ (":" : String)).data = p.data ++ [':'] := by
    rw [String.data_append]
  rw [hdata] at ht
  refine ⟨⟨t⟩, ?_⟩
  unfold parseEnv
  rw [show e.data = p.data ++ ':' :: t from by rw [← ht]; simp]
  rw [splitFirstSub_colon_marker p.data t hcolon]

/-- An entry carrying one of the four recognized markers is consumed by
the env loop. -/
theorem isSwarmEnvEntry_of_marker (e p : String)
    (hp : p ∈ (["affinity", "constraint", "reschedule", "checkpoint-time"] : List String))
    (h : hasPref e (p ++ ":") = true) : isSwarmEnvEntry e = true := by
  have hp' : p = "affinity" ∨ p = "constraint" ∨ p = "reschedule" ∨ p = "checkpoint-time" := by
    simpa using hp
  have hcolon : ':' ∉ p.data := by
    rcases hp' with rfl | rfl | rfl | rfl <;> decide
  obtain ⟨v, hv⟩ := parseEnv_marker p e hcolon h
  unfold isSwarmEnvEntry
  rw [hv]
  simp only []
  rcases hp' with rfl | rfl | rfl | rfl <;> rfl

/-- C3.  `BuildContainerConfig` removes from env exactly the entries of
the form `<marker>:<payload>` with marker among affinity, constraint,
reschedule, checkpoint-time, passing every other entry through in order;
the surviving env has no entry with a recognized marker; and for each of
the four reserved labels, whenever the combined list (values already in
the label, in the order stored there, followed by the payloads moved out
of env) is non-empty, the label afterwards holds its JSON marshalling —
payloads are appended after the values already present. -/
theorem buildContainerConfig_migration (c : ContainerConfig) :
    ((BuildContainerConfig c).env = c.env.filter (fun e => !isSwarmEnvEntry e))
    ∧ (∀ e ∈ (BuildContainerConfig c).env,
        hasPref e "affinity:" = false ∧ hasPref e "constraint:" = false
        ∧ hasPref e "reschedule:" = false ∧ hasPref e "checkpoint-time:" = false)
    ∧ (labelStringList c.labels affinitiesLabel ++ envPayloads "affinity" c.env ≠ [] →
        lookupLabel (BuildContainerConfig c).labels affinitiesLabel
          = some (jsonMarshalStringList
              (labelStringList c.labels affinitiesLabel ++ envPayloads "affinity" c.env)))
    ∧ (labelStringList c.labels constraintsLabel ++ envPayloads "constraint" c.env ≠ [] →
        lookupLabel (BuildContainerConfig c).labels constraintsLabel
          = some (jsonMarshalStringList
              (labelStringList c.labels constraintsLabel ++ envPayloads "constraint" c.env)))
    ∧ (labelStringList c.labels reschedulePoliciesLabel
          ++ envPayloads "reschedule" c.env ≠ [] →
        lookupLabel (BuildContainerConfig c).labels reschedulePoliciesLabel
          = some (jsonMarshalStringList
              (labelStringList c.labels reschedulePoliciesLabel
                ++ envPayloads "reschedule" c.env)))
    ∧ (labelStringList c.labels checkpointTimeLabel
          ++ envPayloads "checkpoint-time" c.env ≠ [] →
        lookupLabel (BuildContainerConfig c).labels checkpointTimeLabel
          = some (jsonMarshalStringList
              (labelStringList c.labels checkpointTimeLabel
                ++ envPayloads "checkpoint-time" c.env))) := by
  have hsplit := splitSwarmEnv_eq c.env
  have henv : (BuildContainerConfig c).env = c.env.filter (fun e => !isSwarmEnvEntry e) := by
    rw [show (BuildContainerConfig c).env = (splitSwarmEnv c.env).env from rfl, hsplit]
  have hlab : (BuildContainerConfig c).labels =
      storeList
        (storeList
          (storeList
            (storeList c.labels
              affinitiesLabel
                (labelStringList c.labels affinitiesLabel ++ envPayloads "affinity" c.env))
            constraintsLabel
              (labelStringList c.labels constraintsLabel ++ envPayloads "constraint" c.env))
          reschedulePoliciesLabel
            (labelStringList c.labels reschedulePoliciesLabel
              ++ envPayloads "reschedule" c.env))
        checkpointTimeLabel
          (labelStringList c.labels checkpointTimeLabel
            ++ envPayloads "checkpoint-time" c.env) := by
    simp only [BuildContainerConfig]
    rw [hsplit]
  refine ⟨henv, fun e he => ?_, fun hne => ?_, fun hne => ?_, fun hne => ?_, fun hne => ?_⟩
  · rw [henv] at he
    have hns : isSwarmEnvEntry e = false := by
      have := (List.mem_filter.mp he).2
      simpa using this
    have hmk : ∀ p, p ∈ (["affinity", "constraint", "reschedule",
        "checkpoint-time"] : List String) → hasPref e (p ++ ":") = false := by
      intro p hp
      cases hval : hasPref e (p ++ ":")
      · rfl
      · exact absurd (isSwarmEnvEntry_of_marker e p hp hval) (by simp [hns])
    exact ⟨hmk "affinity" (by decide), hmk "constraint" (by decide),
      hmk "reschedule" (by decide), hmk "checkpoint-time" (by decide)⟩
  · rw [hlab,
      lookupLabel_storeList_ne _ checkpointTimeLabel _ affinitiesLabel (by decide),
      lookupLabel_storeList_ne _ reschedulePoliciesLabel _ affinitiesLabel (by decide),
      lookupLabel_storeList_ne _ constraintsLabel _ affinitiesLabel (by decide)]
    exact lookupLabel_storeList_self _ _ _ hne
  · rw [hlab,
      lookupLabel_storeList_ne _ checkpointTimeLabel _ constraintsLabel (by decide),
      lookupLabel_storeList_ne _ reschedulePoliciesLabel _ constraintsLabel (by decide)]
    exact lookupLabel_storeList_self _ _ _ hne
  · rw [hlab,
      lookupLabel_storeList_ne _ checkpointTimeLabel _ reschedulePoliciesLabel (by decide)]
    exact lookupLabel_storeList_self _ _ _ hne
  · rw [hlab]
    exact lookupLabel_storeList_self _ _ _ hne

/-- Witness for C3: an env with one affinity, one constraint and one
ordinary entry, against a config that already stores one affinity; the
ordinary entry survives alone, and the payloads land appended in the
reserved labels. -/
theorem buildContainerConfig_migration_witness :
    (BuildContainerConfig ⟨[(affinitiesLabel, "[\"image==nginx\"]")],
        ["affinity:container==redis", "HOME=/x", "constraint:region==us"]⟩).env
      = ["HOME=/x"]
    ∧ lookupLabel (BuildContainerConfig ⟨[(affinitiesLabel, "[\"image==nginx\"]")],
        ["affinity:container==redis", "HOME=/x", "constraint:region==us"]⟩).labels
        affinitiesLabel = some "[\"image==nginx\",\"container==redis\"]"
    ∧ lookupLabel (BuildContainerConfig ⟨[(affinitiesLabel, "[\"image==nginx\"]")],
        ["affinity:container==redis", "HOME=/x", "constraint:region==us"]⟩).labels
        constraintsLabel = some "[\"region==us\"]" := by
  have h := buildContainerConfig_migration
    ⟨[(affinitiesLabel, "[\"image==nginx\"]")],
     ["affinity:container==redis", "HOME=/x", "constraint:region==us"]⟩
  refine ⟨?_, ?_, ?_⟩
  · rw [h.1]
    decide
  · exact (h.2.2.1 (by decide)).trans (by decide)
  · exact (h.2.2.2.1 (by decide)).trans (by decide)

end Swarm
